import Mathlib

/-!
Shallow embedding of the handoff-guard-ts repository: the diagnostic model
and attempt ledger (src/types.ts), the JSON decoding helper (src/utils.ts),
the ambient retry state (src/retry.ts), the guard orchestrator
(src/guard.ts) and the test helper (src/testing.ts).

JavaScript runtime primitives that are external to the repository are
modelled abstractly: JSON.stringify and the String() conversion are
function parameters, JSON.parse is a function parameter of type
String to Except String Value, and Date.now is a parameter giving a
timestamp and a duration per attempt.  Strings are modelled as sequences
of characters (JS indexes UTF-16 units; the difference is irrelevant to
the claims, which are about character counts of ASCII payloads).
-/

/-- Model of a JavaScript value: null, undefined, booleans, numbers
(modelled as integers; no claim depends on float semantics), strings,
plain objects and arrays. -/
inductive Value where
  | vnull
  | undef
  | vbool (b : Bool)
  | vnum (n : Int)
  | vstr (s : String)
  | vobj (fields : List (String × Value))
  | varr (elems : List Value)

/-- The result of the typeof operator on a modelled value. -/
def typeofValue : Value → String
  | .vnull => "object"
  | .undef => "undefined"
  | .vbool _ => "boolean"
  | .vnum _ => "number"
  | .vstr _ => "string"
  | .vobj _ => "object"
  | .varr _ => "object"

/-- JS s.slice(0, n) for a nonnegative bound n. -/
def sliceTo (s : String) (n : Nat) : String := String.mk (s.data.take n)

/-- Diagnostic kind, the type field of a Diagnostic in src/types.ts. -/
inductive DiagKind where
  | validation
  | parse
deriving DecidableEq

def diagKindStr : DiagKind → String
  | .validation => "validation"
  | .parse => "parse"

/-- Diagnostic record from src/types.ts. -/
structure Diagnostic where
  type : DiagKind
  message : String
  field : Option String := none
  expected : Option String := none
  received : Option String := none
  suggestion : Option String := none
  rawOutput : Option String := none
deriving DecidableEq

/-- createDiagnostic from src/types.ts: copies the data and truncates
rawOutput to at most 500 characters. -/
def createDiagnostic (data : Diagnostic) : Diagnostic :=
  { data with rawOutput := data.rawOutput.map (fun s => sliceTo s 500) }

/-- AttemptRecord from src/types.ts.  The timestamp is the clock value
when the record was pushed (new Date in the source), modelled as Nat. -/
structure AttemptRecord where
  attempt : Nat
  timestamp : Nat
  durationMs : Nat
  diagnostic : Option Diagnostic
deriving DecidableEq

inductive ContractType where
  | input
  | output
deriving DecidableEq

/-- ViolationContext from src/types.ts. -/
structure ViolationContext where
  nodeName : String
  contractType : ContractType
  fieldPath : String
  expected : String
  received : String
  receivedType : String
  suggestion : String
deriving DecidableEq

/-- HandoffViolation from src/types.ts: constructor stores the context and
history (defaulting to empty).  nodeName, fieldPath, totalAttempts and the
error message are derived below exactly as the constructor computes them. -/
structure HandoffViolation where
  context : ViolationContext
  history : List AttemptRecord := []
deriving DecidableEq

def HandoffViolation.nodeName (v : HandoffViolation) : String := v.context.nodeName

def HandoffViolation.fieldPath (v : HandoffViolation) : String := v.context.fieldPath

/-- this.totalAttempts = this.history.length or 1 when the history is empty
(the JS expression history.length with a falsy fallback of 1). -/
def HandoffViolation.totalAttempts (v : HandoffViolation) : Nat :=
  if v.history.length = 0 then 1 else v.history.length

def HandoffViolation.errorMessage (v : HandoffViolation) : String :=
  "Validation failed at '" ++ v.context.nodeName ++ "': " ++ v.context.expected

/-- ParseError from src/utils.ts: message plus the raw output text. -/
structure ParseErr where
  message : String
  rawOutput : String
deriving DecidableEq

/-- The WhiteSpace set of the JS String.prototype.trim family:
tab, line terminators, space, NBSP, BOM and the Unicode space separators. -/
def isJsWhitespace (c : Char) : Bool :=
  c = ' ' || c = '\t' || c = '\n' || c = '\r' ||
  c.toNat = 0x0B || c.toNat = 0x0C || c.toNat = 0xA0 || c.toNat = 0xFEFF ||
  c.toNat = 0x1680 || (0x2000 ≤ c.toNat && c.toNat ≤ 0x200A) ||
  c.toNat = 0x2028 || c.toNat = 0x2029 || c.toNat = 0x202F ||
  c.toNat = 0x205F || c.toNat = 0x3000

def jsTrimStartL (l : List Char) : List Char := l.dropWhile isJsWhitespace

def jsTrimEndL (l : List Char) : List Char := (l.reverse.dropWhile isJsWhitespace).reverse

/-- JS s.trimEnd(). -/
def jsTrimEnd (s : String) : String := String.mk (jsTrimEndL s.data)

/-- JS s.trim(). -/
def jsTrim (s : String) : String := String.mk (jsTrimEndL (jsTrimStartL s.data))

/-- The three-backtick fence marker as a character list. -/
def fenceChars : List Char := ['`', '`', '`']

/-- The BOM strip at the top of parseJson: drop the first character when
its code unit is 0xFEFF. -/
def stripBom (l : List Char) : List Char :=
  match l with
  | c :: rest => if c.toNat = 0xFEFF then rest else l
  | [] => []

/-- The markdown fence stripping parseJson applies to the trimmed text:
when it starts with a fence, drop the first fence line (split at the first
newline), drop a trailing fence after trimEnd (slice(0, -3)), and trim the
remaining body; otherwise keep the trimmed text (src/utils.ts lines 27 to
37). -/
def fenceStrip (stripped : List Char) : List Char :=
  if fenceChars.isPrefixOf stripped then
    let firstLine := stripped.takeWhile (fun c => c != '\n')
    let body := stripped.drop (firstLine.length + 1)
    let te := jsTrimEndL body
    let body2 := if fenceChars.isSuffixOf te then te.dropLast.dropLast.dropLast else body
    jsTrimEndL (jsTrimStartL body2)
  else stripped

/-- The normalization parseJson applies to a string before JSON.parse:
strip a leading BOM, trim, then strip markdown code fences
(src/utils.ts lines 19 to 37). -/
def normalizeTextL (l : List Char) : List Char :=
  fenceStrip (jsTrimEndL (jsTrimStartL (stripBom l)))

def normalizeText (s : String) : String := String.mk (normalizeTextL s.data)

/-- parseJson from src/utils.ts.  jsonParse models the JSON.parse builtin
(ok value, or the message of the SyntaxError it throws); toStr models the
String() conversion.  A non-string input raises a ParseError carrying
String(input) truncated to 500; a string input is normalized and decoded,
and on decode failure the ParseError carries the message and the original
input string. -/
def parseJson (jsonParse : String → Except String Value) (toStr : Value → String)
    (input : Value) : Except ParseErr Value :=
  match input with
  | .vstr s =>
    match jsonParse (normalizeText s) with
    | .ok v => .ok v
    | .error msg => .error ⟨msg, s⟩
  | v => .error ⟨"Expected string, got " ++ typeofValue v, sliceTo (toStr v) 500⟩

/-- The two retryable failure kinds in the retryOn option of src/guard.ts. -/
inductive RetryKind where
  | validation
  | parse
deriving DecidableEq

/-- The zod issue code, with the payloads the suggestion generator reads:
the expected type for invalid_type and the allowed values for
invalid_value.  Every other code takes the default branch. -/
inductive IssueCode where
  | tooSmall
  | tooBig
  | invalidType (expected : String)
  | invalidValue (values : Option (List String))
  | otherCode (code : String)
deriving DecidableEq

/-- The first issue of a failed zod safeParse: path, message and code. -/
structure ZodIssue where
  path : List String
  message : String
  code : IssueCode
deriving DecidableEq

/-- path.join, falling back to a default when the joined path is empty
(the JS expression path.join with a falsy fallback). -/
def pathOr (path : List String) (dflt : String) : String :=
  let joined := String.intercalate "." path
  if joined = "" then dflt else joined

/-- A JS word character, the character class of the suggestion regex. -/
def wordChar (c : Char) : Bool := c.isAlphanum || c = '_'

/-- Leftmost match of the regex received-space-word-group in a message:
at each position, when the text received followed by a space is a prefix
and at least one word character follows, capture the maximal word run. -/
def findReceivedWord : List Char → Option String
  | [] => none
  | c :: rest =>
    if ("received ".data).isPrefixOf (c :: rest) then
      let run := ((c :: rest).drop 9).takeWhile wordChar
      if run.isEmpty then findReceivedWord rest else some (String.mk run)
    else findReceivedWord rest

/-- generateSuggestion from src/guard.ts. -/
def generateSuggestion (issue : ZodIssue) : String :=
  let field := pathOr issue.path "value"
  match issue.code with
  | .tooSmall => "Increase the length/value of '" ++ field ++ "'"
  | .tooBig => "Decrease the length/value of '" ++ field ++ "'"
  | .invalidType expected =>
    match findReceivedWord issue.message.data with
    | some received => "'" ++ field ++ "' should be " ++ expected ++ ", got " ++ received
    | none => "'" ++ field ++ "' should be " ++ expected
  | .invalidValue values =>
    let rendered := match values with
      | some vs => String.intercalate ", " vs
      | none => "undefined"
    "'" ++ field ++ "' must be one of: " ++ rendered
  | .otherCode _ => "Fix '" ++ field ++ "': " ++ issue.message

/-- formatFeedback from src/guard.ts: null for a null diagnostic, else the
fixed-order feedback block; the field and suggestion lines appear only when
the value is truthy (present and nonempty), the raw output excerpt is
truncated to 200 characters. -/
def formatFeedback : Option Diagnostic → Option String
  | none => none
  | some d =>
    let base := ["[Retry] Previous attempt failed (" ++ diagKindStr d.type ++ "):",
                 "  Message: " ++ d.message]
    let l1 := match d.field with
      | some f => if f != "" then base ++ ["  Field: " ++ f] else base
      | none => base
    let l2 := match d.suggestion with
      | some sug => if sug != "" then l1 ++ ["  Suggestion: " ++ sug] else l1
      | none => l1
    let l3 := match d.rawOutput with
      | some r => if r != "" then l2 ++ ["  Raw output: " ++ sliceTo r 200] else l2
      | none => l2
    some (String.intercalate "\n" l3)

/-- RetryState from src/retry.ts.  The feedback closure is modelled by its
value at publication time (feedbackVal); remaining is an integer because
the JS subtraction is not clamped at zero. -/
structure RetryState where
  attempt : Nat
  maxAttempts : Nat
  remaining : Int
  isRetry : Bool
  isFinalAttempt : Bool
  lastError : Option Diagnostic
  history : List AttemptRecord
  feedbackVal : Option String
deriving DecidableEq

/-- The per-attempt state the guard publishes (src/guard.ts lines 81 to
90): the derived fields are computed from attempt and maxAttempts, the
history is a snapshot, and feedback renders the last diagnostic. -/
def mkRetryState (attempt maxAttempts : Nat) (lastError : Option Diagnostic)
    (history : List AttemptRecord) : RetryState :=
  { attempt := attempt
    maxAttempts := maxAttempts
    remaining := (maxAttempts : Int) - (attempt : Int)
    isRetry := decide (attempt > 1)
    isFinalAttempt := decide (attempt = maxAttempts)
    lastError := lastError
    history := history
    feedbackVal := formatFeedback lastError }

/-- getDefaultState from src/retry.ts. -/
def getDefaultState : RetryState :=
  { attempt := 1
    maxAttempts := 1
    remaining := 0
    isRetry := false
    isFinalAttempt := true
    lastError := none
    history := []
    feedbackVal := none }

/-- The retry proxy of src/retry.ts: reads the ambient store when one is
bound by an enclosing run, and the default state otherwise. -/
def currentState (store : Option RetryState) : RetryState := store.getD getDefaultState

/-- MockRetryOptions from src/testing.ts. -/
structure MockRetryOptions where
  attempt : Option Nat := none
  maxAttempts : Option Nat := none
  lastError : Option Diagnostic := none
  feedbackText : Option String := none

/-- The state mockRetry publishes (src/testing.ts): attempt defaults to 2,
maxAttempts to 3; when no diagnostic is given and feedbackText is truthy a
validation diagnostic is synthesized from it; feedback renders a canned
string over the diagnostic message. -/
def mockRetryState (o : MockRetryOptions) : RetryState :=
  let attempt := o.attempt.getD 2
  let maxAttempts := o.maxAttempts.getD 3
  let lastError := match o.lastError with
    | some d => some d
    | none => match o.feedbackText with
      | some s => if s != "" then some { type := .validation, message := s } else none
      | none => none
  { attempt := attempt
    maxAttempts := maxAttempts
    remaining := (maxAttempts : Int) - (attempt : Int)
    isRetry := decide (attempt > 1)
    isFinalAttempt := decide (attempt = maxAttempts)
    lastError := lastError
    history := []
    feedbackVal := lastError.map (fun d => "Mock feedback for: " ++ d.message) }

/-- One producer invocation either returns a value, throws a ParseError,
or throws some other error (modelled by an arbitrary type E). -/
inductive ProducerOutcome (E : Type) where
  | ok (v : Value)
  | parseErr (e : ParseErr)
  | otherErr (e : E)

/-- The observable outcome of a guarded call: a returned value, a thrown
HandoffViolation, a re-thrown ParseError, a re-thrown unrelated error, or
the defensive internal error at the end of the loop. -/
inductive GuardResult (E : Type) where
  | ret (v : Value)
  | violation (v : HandoffViolation)
  | parseThrown (e : ParseErr)
  | otherThrown (e : E)
  | internalError (msg : String)

/-- The onFail option of src/guard.ts: the six string actions plus a
custom handler function. -/
inductive OnFail where
  | raiseViolation
  | throwViolation
  | returnNoneAction
  | returnNullAction
  | returnInputSnake
  | returnInputCamel
  | handler (h : HandoffViolation → Value)

/-- handleFailure from src/guard.ts: raise and throw re-raise the
violation, the return-none and return-null spellings return null, the
return-input spellings return the resolved input data, and a function
handler returns its result. -/
def handleFailure {E : Type} (violation : HandoffViolation) (inputData : Value)
    (onFail : OnFail) : GuardResult E :=
  match onFail with
  | .raiseViolation => .violation violation
  | .throwViolation => .violation violation
  | .returnNoneAction => .ret .vnull
  | .returnNullAction => .ret .vnull
  | .returnInputSnake => .ret inputData
  | .returnInputCamel => .ret inputData
  | .handler h => .ret (h violation)

/-- A zod schema is consumed only through safeParse; the model keeps the
observable part: none on success, or the first issue on failure. -/
abbrev Schema : Type := Value → Option ZodIssue

/-- GuardOptions from src/guard.ts with its defaults. -/
structure GuardConfig where
  input : Option Schema := none
  output : Option Schema := none
  nodeName : Option String := none
  maxAttempts : Nat := 1
  retryOn : List RetryKind := [.validation, .parse]
  onFail : OnFail := .raiseViolation
  inputParam : Option String := none

/-- resolveInputData from src/guard.ts: undefined for no arguments; the
first argument, except that when inputParam is set and the first argument
is a non-array object containing that key, the named field is extracted. -/
def resolveInputData (args : List Value) (inputParam : Option String) : Value :=
  match args with
  | [] => .undef
  | firstArg :: _ =>
    match inputParam with
    | none => firstArg
    | some key =>
      match firstArg with
      | .vobj fields =>
        match fields.lookup key with
        | some v => v
        | none => .vobj fields
      | _ => firstArg

/-- JSON.stringify of a value, truncated to 200 characters, with the
string undefined when stringify yields no string. -/
def receivedString (stringify : Value → Option String) (v : Value) : String :=
  ((stringify v).map (fun s => sliceTo s 200)).getD "undefined"

/-- The diagnostic built for an output-validation failure
(src/guard.ts lines 103 to 110). -/
def valDiag (stringify : Value → Option String) (result : Value) (issue : ZodIssue) :
    Diagnostic :=
  createDiagnostic
    { type := .validation
      message := issue.message
      field := some (pathOr issue.path "root")
      expected := some issue.message
      received := (stringify result).map (fun s => sliceTo s 200)
      suggestion := some (generateSuggestion issue) }

/-- The diagnostic built for a ParseError (src/guard.ts lines 155 to 160). -/
def parseDiag (e : ParseErr) : Diagnostic :=
  createDiagnostic
    { type := .parse
      message := e.message
      rawOutput := some e.rawOutput
      suggestion := some "Return valid JSON" }

/-- The input-contract violation (src/guard.ts lines 58 to 69): empty
history. -/
def inputViolation (stringify : Value → Option String) (nodeName : String)
    (inputData : Value) (issue : ZodIssue) : HandoffViolation :=
  { context :=
      { nodeName := nodeName
        contractType := .input
        fieldPath := pathOr issue.path "root"
        expected := issue.message
        received := receivedString stringify inputData
        receivedType := typeofValue inputData
        suggestion := generateSuggestion issue } }

/-- The terminal output-contract violation for a validation failure
(src/guard.ts lines 125 to 137). -/
def outputViolation (stringify : Value → Option String) (nodeName : String)
    (result : Value) (issue : ZodIssue) (history : List AttemptRecord) :
    HandoffViolation :=
  { context :=
      { nodeName := nodeName
        contractType := .output
        fieldPath := pathOr issue.path "root"
        expected := issue.message
        received := receivedString stringify result
        receivedType := typeofValue result
        suggestion := generateSuggestion issue }
    history := history }

/-- The terminal output-contract violation for an exhausted ParseError
(src/guard.ts lines 180 to 191). -/
def parseViolation (nodeName : String) (e : ParseErr)
    (history : List AttemptRecord) : HandoffViolation :=
  { context :=
      { nodeName := nodeName
        contractType := .output
        fieldPath := "root"
        expected := "Valid JSON"
        received := sliceTo e.rawOutput 200
        receivedType := "string"
        suggestion := "Return valid JSON" }
    history := history }

/-- The observables of one guarded call: the outcome, the number of
producer invocations (instrumentation for the call-count properties), and
the history array at exit (instrumentation for the ledger properties). -/
structure LoopOut (E : Type) where
  result : GuardResult E
  calls : Nat
  ledger : List AttemptRecord

/-- The retry loop of src/guard.ts (lines 78 to 200).  The for loop with
attempt running from 1 while attempt is at most maxAttempts is encoded
with a fuel argument equal to maxAttempts + 1 - attempt, so that fuel
reaching 0 is exactly the loop condition failing, which in the source
falls through to the defensive internal error.  The producer is modelled
as a function of the published RetryState: its arguments are fixed for the
whole call, so every dependency on them is captured in the closure, and
both the ambient state and the injected state argument equal the published
state.  times models the Date.now clock per attempt. -/
def guardLoop {E : Type} (stringify : Value → Option String) (times : Nat → Nat × Nat)
    (cfg : GuardConfig) (nodeName : String) (producer : RetryState → ProducerOutcome E)
    (inputData : Value) :
    List AttemptRecord → Option Diagnostic → Nat → Nat → LoopOut E
  | history, _, _, 0 =>
    { result := .internalError "Unexpected end of retry loop", calls := 0, ledger := history }
  | history, lastError, attempt, fuel + 1 =>
    let ts := times attempt
    match producer (mkRetryState attempt cfg.maxAttempts lastError history) with
    | .ok result =>
      match cfg.output.bind (fun sch => sch result) with
      | some issue =>
        let d := valDiag stringify result issue
        let history2 := history ++ [⟨attempt, ts.1, ts.2, some d⟩]
        if attempt < cfg.maxAttempts ∧ RetryKind.validation ∈ cfg.retryOn then
          let r := guardLoop stringify times cfg nodeName producer inputData
            history2 (some d) (attempt + 1) fuel
          { r with calls := r.calls + 1 }
        else
          { result := handleFailure (outputViolation stringify nodeName result issue history2)
              inputData cfg.onFail
            calls := 1
            ledger := history2 }
      | none =>
        { result := .ret result
          calls := 1
          ledger := history ++ [⟨attempt, ts.1, ts.2, none⟩] }
    | .parseErr e =>
      let d := parseDiag e
      let history2 := history ++ [⟨attempt, ts.1, ts.2, some d⟩]
      if attempt < cfg.maxAttempts ∧ RetryKind.parse ∈ cfg.retryOn then
        let r := guardLoop stringify times cfg nodeName producer inputData
          history2 (some d) (attempt + 1) fuel
        { r with calls := r.calls + 1 }
      else if cfg.maxAttempts = 1 ∨ RetryKind.parse ∉ cfg.retryOn then
        { result := .parseThrown e, calls := 1, ledger := history2 }
      else
        { result := handleFailure (parseViolation nodeName e history2) inputData cfg.onFail
          calls := 1
          ledger := history2 }
    | .otherErr e =>
      { result := .otherThrown e, calls := 1, ledger := history }

/-- The guarded wrapper returned by guard (src/guard.ts lines 50 to 201):
resolve the node name and the logical input, validate the input once with
no retry, then run the attempt loop starting at attempt 1 with
maxAttempts iterations of fuel. -/
def guarded {E : Type} (stringify : Value → Option String) (times : Nat → Nat × Nat)
    (cfg : GuardConfig) (fnName : Option String)
    (producer : RetryState → ProducerOutcome E) (args : List Value) : LoopOut E :=
  let nodeName := cfg.nodeName.getD (fnName.getD "anonymous")
  let inputData := resolveInputData args cfg.inputParam
  match cfg.input.bind (fun sch => sch inputData) with
  | some issue =>
    { result := handleFailure (inputViolation stringify nodeName inputData issue)
        inputData cfg.onFail
      calls := 0
      ledger := [] }
  | none =>
    guardLoop stringify times cfg nodeName producer inputData [] none 1 cfg.maxAttempts

/-- The derived-field invariant of a published ExecutionState. -/
def stateInvariant (s : RetryState) : Prop :=
  s.remaining = (s.maxAttempts : Int) - (s.attempt : Int) ∧
  s.isRetry = decide (s.attempt > 1) ∧
  s.isFinalAttempt = decide (s.attempt = s.maxAttempts)

/-- A concrete first issue used by the witness instances: a zod issue with
an empty path and a generic code. -/
def issue0 : ZodIssue := { path := [], message := "Required", code := .otherCode "custom" }

/-- A diagnostic input with a 2000-character raw payload, used by the
truncation witness. -/
def diag2000 : Diagnostic :=
  { type := .parse
    message := "m"
    rawOutput := some (String.mk (List.replicate 2000 'x')) }

/-- A 501-character string that is not valid JSON, used by the C6
counterexample. -/
def longRaw : String := String.mk (List.replicate 501 'x')

theorem sliceTo_length_le (s : String) (n : Nat) : (sliceTo s n).length ≤ n := by
  show (s.data.take n).length ≤ n
  rw [List.length_take]
  exact min_le_left _ _

theorem attemptIndexCongr {l l' : List AttemptRecord} (h : l = l')
    (hall : ∀ i (hi : i < l'.length), (l'.get ⟨i, hi⟩).attempt = i + 1) :
    ∀ i (hi : i < l.length), (l.get ⟨i, hi⟩).attempt = i + 1 := by
  subst h
  exact hall

/-- Helper: a producer that always returns an output failing validation
drives the loop to exhaustion; starting at any attempt with any
accumulated history, the loop runs maxAttempts + 1 - attempt more
invocations, appends that many records numbered consecutively from
attempt, and applies the failure policy to a violation carrying the full
ledger. -/
theorem guardLoop_exhaust {E : Type} (stringify : Value → Option String)
    (times : Nat → Nat × Nat) (cfg : GuardConfig) (nodeName : String)
    (producer : RetryState → ProducerOutcome E) (inputData : Value)
    (hret : RetryKind.validation ∈ cfg.retryOn)
    (hout : ∀ s : RetryState, ∃ v issue, producer s = .ok v ∧
              cfg.output.bind (fun sch => sch v) = some issue) :
    ∀ (fuel attempt : Nat) (history : List AttemptRecord) (lastError : Option Diagnostic),
      fuel = cfg.maxAttempts + 1 - attempt → 1 ≤ attempt → attempt ≤ cfg.maxAttempts →
      ∃ (recs : List AttemptRecord) (viol : HandoffViolation),
        guardLoop stringify times cfg nodeName producer inputData history lastError attempt fuel =
          { result := handleFailure viol inputData cfg.onFail
            calls := cfg.maxAttempts + 1 - attempt
            ledger := history ++ recs } ∧
        viol.history = history ++ recs ∧
        recs.length = cfg.maxAttempts + 1 - attempt ∧
        ∀ i (h : i < recs.length), (recs.get ⟨i, h⟩).attempt = attempt + i := by
  intro fuel
  induction fuel with
  | zero =>
    intro attempt history lastError hfuel h1 hle
    exfalso
    omega
  | succ fuel ih =>
    intro attempt history lastError hfuel h1 hle
    obtain ⟨v, issue, hv, hiss⟩ := hout (mkRetryState attempt cfg.maxAttempts lastError history)
    by_cases hlt : attempt < cfg.maxAttempts
    · obtain ⟨recs, viol, heq, hvh, hlen, hidx⟩ :=
        ih (attempt + 1)
          (history ++ [⟨attempt, (times attempt).1, (times attempt).2,
            some (valDiag stringify v issue)⟩])
          (some (valDiag stringify v issue)) (by omega) (by omega) (by omega)
      refine ⟨⟨attempt, (times attempt).1, (times attempt).2,
        some (valDiag stringify v issue)⟩ :: recs, viol, ?_, ?_, ?_, ?_⟩
      · simp only [guardLoop, hv, hiss]
        rw [if_pos ⟨hlt, hret⟩]
        rw [heq]
        simp only [LoopOut.mk.injEq]
        refine ⟨trivial, by omega, by simp⟩
      · simp [hvh]
      · simp only [List.length_cons]
        omega
      · intro i h
        match i with
        | 0 => rfl
        | i + 1 =>
          have := hidx i (by simpa using h)
          simp only [List.get_cons_succ]
          omega
    · have hA : attempt = cfg.maxAttempts := by omega
      refine ⟨[⟨attempt, (times attempt).1, (times attempt).2,
        some (valDiag stringify v issue)⟩],
        outputViolation stringify nodeName v issue
          (history ++ [⟨attempt, (times attempt).1, (times attempt).2,
            some (valDiag stringify v issue)⟩]), ?_, ?_, ?_, ?_⟩
      · simp only [guardLoop, hv, hiss]
        rw [if_neg (fun hc => hlt hc.1)]
        simp only [LoopOut.mk.injEq]
        refine ⟨trivial, by omega, trivial⟩
      · rfl
      · simp only [List.length_singleton]
        omega
      · intro i h
        match i with
        | 0 => rfl

/-- Claim C1: with validation retryable and an always-invalid producer
that never throws, the guarded call invokes the producer exactly
maxAttempts times and the terminal violation ledger has maxAttempts
entries numbered i + 1 at index i; the failure policy is applied to it. -/
theorem claim1_exhaustion {E : Type} (stringify : Value → Option String)
    (times : Nat → Nat × Nat) (cfg : GuardConfig) (fnName : Option String)
    (producer : RetryState → ProducerOutcome E) (args : List Value)
    (hN : 1 ≤ cfg.maxAttempts)
    (hret : RetryKind.validation ∈ cfg.retryOn)
    (hin : cfg.input.bind (fun sch => sch (resolveInputData args cfg.inputParam)) = none)
    (hout : ∀ s : RetryState, ∃ v issue, producer s = .ok v ∧
              cfg.output.bind (fun sch => sch v) = some issue) :
    ∃ viol : HandoffViolation,
      (guarded stringify times cfg fnName producer args).result =
        handleFailure viol (resolveInputData args cfg.inputParam) cfg.onFail ∧
      (guarded stringify times cfg fnName producer args).calls = cfg.maxAttempts ∧
      viol.history.length = cfg.maxAttempts ∧
      ∀ i (h : i < viol.history.length), (viol.history.get ⟨i, h⟩).attempt = i + 1 := by
  obtain ⟨recs, viol, heq, hvh, hlen, hidx⟩ :=
    guardLoop_exhaust stringify times cfg (cfg.nodeName.getD (fnName.getD "anonymous"))
      producer (resolveInputData args cfg.inputParam) hret hout
      cfg.maxAttempts 1 [] none (by omega) (by omega) hN
  refine ⟨viol, ?_, ?_, ?_, ?_⟩
  · simp only [guarded, hin]
    rw [heq]
  · simp only [guarded, hin]
    rw [heq]
    show cfg.maxAttempts + 1 - 1 = cfg.maxAttempts
    omega
  · rw [hvh]
    simp only [List.nil_append]
    omega
  · have hvh' : viol.history = recs := by simpa using hvh
    exact attemptIndexCongr hvh'
      (fun i hi => (hidx i hi).trans (Nat.add_comm 1 i))

/-- Witness for C1 at maxAttempts = 3 with a producer always missing the
output schema. -/
theorem claim1_exhaustion_witness :
    ∃ viol : HandoffViolation,
      (guarded (E := Unit) (fun _ => none) (fun _ => (0, 0))
        { output := some (fun _ => some issue0), maxAttempts := 3 }
        none (fun _ => .ok .vnull) [.vnum 1]).result =
        handleFailure viol (resolveInputData [.vnum 1] none) .raiseViolation ∧
      (guarded (E := Unit) (fun _ => none) (fun _ => (0, 0))
        { output := some (fun _ => some issue0), maxAttempts := 3 }
        none (fun _ => .ok .vnull) [.vnum 1]).calls = 3 ∧
      viol.history.length = 3 ∧
      ∀ i (h : i < viol.history.length), (viol.history.get ⟨i, h⟩).attempt = i + 1 :=
  claim1_exhaustion (fun _ => none) (fun _ => (0, 0))
    { output := some (fun _ => some issue0), maxAttempts := 3 }
    none (fun _ => .ok .vnull) [.vnum 1]
    (by decide) (by decide) rfl
    (fun _ => ⟨.vnull, issue0, rfl, rfl⟩)

/-- Claim C2: with a configured input schema rejecting the resolved input,
the guarded call makes zero producer invocations, performs no retry, and
immediately applies the failure policy to an input-contract violation with
an empty ledger and totalAttempts 1. -/
theorem claim2_input_no_invoke {E : Type} (stringify : Value → Option String)
    (times : Nat → Nat × Nat) (cfg : GuardConfig) (fnName : Option String)
    (producer : RetryState → ProducerOutcome E) (args : List Value)
    (sch : Schema) (issue : ZodIssue)
    (hin : cfg.input = some sch)
    (hfail : sch (resolveInputData args cfg.inputParam) = some issue) :
    guarded stringify times cfg fnName producer args =
      { result := handleFailure
          (inputViolation stringify (cfg.nodeName.getD (fnName.getD "anonymous"))
            (resolveInputData args cfg.inputParam) issue)
          (resolveInputData args cfg.inputParam) cfg.onFail
        calls := 0
        ledger := [] } ∧
    (inputViolation stringify (cfg.nodeName.getD (fnName.getD "anonymous"))
      (resolveInputData args cfg.inputParam) issue).context.contractType = .input ∧
    (inputViolation stringify (cfg.nodeName.getD (fnName.getD "anonymous"))
      (resolveInputData args cfg.inputParam) issue).history = [] ∧
    (inputViolation stringify (cfg.nodeName.getD (fnName.getD "anonymous"))
      (resolveInputData args cfg.inputParam) issue).totalAttempts = 1 := by
  refine ⟨?_, rfl, rfl, rfl⟩
  simp only [guarded, hin, Option.bind, hfail]

/-- Witness for C2 at maxAttempts = 3 with an always-rejecting input
schema. -/
theorem claim2_input_no_invoke_witness :
    guarded (E := Unit) (fun _ => none) (fun _ => (0, 0))
      { input := some (fun _ => some issue0), maxAttempts := 3 }
      none (fun _ => .ok .vnull) [.vnum 1] =
      { result := handleFailure
          (inputViolation (fun _ => none) "anonymous" (.vnum 1) issue0)
          (.vnum 1) .raiseViolation
        calls := 0
        ledger := [] } ∧
    (inputViolation (fun _ => none) "anonymous" (.vnum 1) issue0).context.contractType = .input ∧
    (inputViolation (fun _ => none) "anonymous" (.vnum 1) issue0).history = [] ∧
    (inputViolation (fun _ => none) "anonymous" (.vnum 1) issue0).totalAttempts = 1 :=
  claim2_input_no_invoke (fun _ => none) (fun _ => (0, 0))
    { input := some (fun _ => some issue0), maxAttempts := 3 }
    none (fun _ => .ok .vnull) [.vnum 1] (fun _ => some issue0) issue0 rfl rfl

/-- Claim C3: when a producer invocation raises a ParseError, (first
conjunct) with maxAttempts 1 or parse not retryable the loop re-raises the
very ParseError the producer threw, after exactly that one invocation and
without applying the failure policy; (second conjunct) with maxAttempts
above 1, parse retryable and the failure on the final attempt, the loop
builds the terminal violation from the full ledger and applies the failure
policy. -/
theorem claim3_parse_reraise_or_violation {E : Type} (stringify : Value → Option String)
    (times : Nat → Nat × Nat) (cfg : GuardConfig) (nodeName : String)
    (producer : RetryState → ProducerOutcome E) (inputData : Value) :
    (∀ (fuel attempt : Nat) (history : List AttemptRecord)
       (lastError : Option Diagnostic) (e : ParseErr),
      fuel = cfg.maxAttempts + 1 - attempt → 1 ≤ attempt → attempt ≤ cfg.maxAttempts →
      producer (mkRetryState attempt cfg.maxAttempts lastError history) = .parseErr e →
      (cfg.maxAttempts = 1 ∨ RetryKind.parse ∉ cfg.retryOn) →
      guardLoop stringify times cfg nodeName producer inputData history lastError attempt fuel =
        { result := .parseThrown e
          calls := 1
          ledger := history ++
            [⟨attempt, (times attempt).1, (times attempt).2, some (parseDiag e)⟩] }) ∧
    (∀ (history : List AttemptRecord) (lastError : Option Diagnostic) (e : ParseErr),
      1 < cfg.maxAttempts → RetryKind.parse ∈ cfg.retryOn →
      producer (mkRetryState cfg.maxAttempts cfg.maxAttempts lastError history) = .parseErr e →
      guardLoop stringify times cfg nodeName producer inputData history lastError
          cfg.maxAttempts 1 =
        { result := handleFailure
            (parseViolation nodeName e (history ++ [⟨cfg.maxAttempts,
              (times cfg.maxAttempts).1, (times cfg.maxAttempts).2, some (parseDiag e)⟩]))
            inputData cfg.onFail
          calls := 1
          ledger := history ++ [⟨cfg.maxAttempts, (times cfg.maxAttempts).1,
            (times cfg.maxAttempts).2, some (parseDiag e)⟩] }) := by
  constructor
  · intro fuel attempt history lastError e hfuel h1 hle hp hcase
    obtain ⟨f, rfl⟩ : ∃ f, fuel = f + 1 := ⟨fuel - 1, by omega⟩
    simp only [guardLoop, hp]
    have hnc : ¬(attempt < cfg.maxAttempts ∧ RetryKind.parse ∈ cfg.retryOn) := by
      rintro ⟨hlt, hmem⟩
      rcases hcase with h | h
      · omega
      · exact h hmem
    rw [if_neg hnc, if_pos hcase]
  · intro history lastError e hN hretry hp
    simp only [guardLoop, hp]
    have hnc1 : ¬(cfg.maxAttempts < cfg.maxAttempts ∧ RetryKind.parse ∈ cfg.retryOn) :=
      fun hc => absurd hc.1 (Nat.lt_irrefl _)
    have hnc2 : ¬(cfg.maxAttempts = 1 ∨ RetryKind.parse ∉ cfg.retryOn) := by
      rintro (h | h)
      · omega
      · exact h hretry
    rw [if_neg hnc1, if_neg hnc2]

/-- Witness for C3: first conjunct at maxAttempts 1, second at
maxAttempts 2 on the final attempt. -/
theorem claim3_parse_reraise_or_violation_witness :
    (guardLoop (E := Unit) (fun _ => none) (fun _ => (0, 0))
      { output := some (fun _ => some issue0), maxAttempts := 1 } "n"
      (fun _ => .parseErr ⟨"bad json", "not json"⟩) .vnull [] none 1 1 =
      { result := .parseThrown ⟨"bad json", "not json"⟩
        calls := 1
        ledger := [] ++ [⟨1, 0, 0, some (parseDiag ⟨"bad json", "not json"⟩)⟩] }) ∧
    (guardLoop (E := Unit) (fun _ => none) (fun _ => (0, 0))
      { output := some (fun _ => some issue0), maxAttempts := 2 } "n"
      (fun _ => .parseErr ⟨"bad json", "not json"⟩) .vnull [] none 2 1 =
      { result := handleFailure
          (parseViolation "n" ⟨"bad json", "not json"⟩
            ([] ++ [⟨2, 0, 0, some (parseDiag ⟨"bad json", "not json"⟩)⟩]))
          .vnull .raiseViolation
        calls := 1
        ledger := [] ++ [⟨2, 0, 0, some (parseDiag ⟨"bad json", "not json"⟩)⟩] }) :=
  ⟨(claim3_parse_reraise_or_violation (fun _ => none) (fun _ => (0, 0))
      { output := some (fun _ => some issue0), maxAttempts := 1 } "n"
      (fun _ => .parseErr ⟨"bad json", "not json"⟩) .vnull).1
      1 1 [] none ⟨"bad json", "not json"⟩ rfl (by decide) (by decide) rfl (Or.inl rfl),
   (claim3_parse_reraise_or_violation (fun _ => none) (fun _ => (0, 0))
      { output := some (fun _ => some issue0), maxAttempts := 2 } "n"
      (fun _ => .parseErr ⟨"bad json", "not json"⟩) .vnull).2
      [] none ⟨"bad json", "not json"⟩ (by decide) (by decide) rfl⟩

/-- Claim C7: a producer invocation raising a non-ParseError failure makes
the loop return that very error immediately: one invocation, no record
appended (the ledger at exit is the history unchanged), no further
attempts and no failure policy. -/
theorem claim7_unrelated_error {E : Type} (stringify : Value → Option String)
    (times : Nat → Nat × Nat) (cfg : GuardConfig) (nodeName : String)
    (producer : RetryState → ProducerOutcome E) (inputData : Value)
    (fuel attempt : Nat) (history : List AttemptRecord)
    (lastError : Option Diagnostic) (e : E)
    (hfuel : fuel = cfg.maxAttempts + 1 - attempt) (hle : attempt ≤ cfg.maxAttempts)
    (hp : producer (mkRetryState attempt cfg.maxAttempts lastError history) = .otherErr e) :
    guardLoop stringify times cfg nodeName producer inputData history lastError attempt fuel =
      { result := .otherThrown e, calls := 1, ledger := history } := by
  obtain ⟨f, rfl⟩ : ∃ f, fuel = f + 1 := ⟨fuel - 1, by omega⟩
  simp only [guardLoop, hp]

/-- Witness for C7 at maxAttempts 3, error thrown on attempt 1. -/
theorem claim7_unrelated_error_witness :
    guardLoop (E := Nat) (fun _ => none) (fun _ => (0, 0))
      { output := some (fun _ => some issue0), maxAttempts := 3 } "n"
      (fun _ => .otherErr 7) .vnull [] none 1 3 =
      { result := .otherThrown 7, calls := 1, ledger := [] } :=
  claim7_unrelated_error (fun _ => none) (fun _ => (0, 0))
    { output := some (fun _ => some issue0), maxAttempts := 3 } "n"
    (fun _ => .otherErr 7) .vnull 3 1 [] none 7 rfl (by decide) rfl

/-- Claim C8: every state published by the guard loop, every state
published by mockRetry, and the default state satisfy the derived-field
equations, and with no active publication the ambient accessor returns the
default state with attempt 1, maxAttempts 1, isRetry false, no last
diagnostic and null feedback. -/
theorem claim8_state_invariants :
    (∀ (a m : Nat) (le : Option Diagnostic) (h : List AttemptRecord),
      stateInvariant (mkRetryState a m le h)) ∧
    (∀ o : MockRetryOptions, stateInvariant (mockRetryState o)) ∧
    stateInvariant getDefaultState ∧
    currentState none = getDefaultState ∧
    getDefaultState.attempt = 1 ∧ getDefaultState.maxAttempts = 1 ∧
    getDefaultState.isRetry = false ∧ getDefaultState.lastError = none ∧
    getDefaultState.feedbackVal = none := by
  refine ⟨fun a m le h => ⟨rfl, rfl, rfl⟩, fun o => ⟨rfl, rfl, rfl⟩,
    ⟨by decide, by decide, by decide⟩, rfl, rfl, rfl, rfl, rfl, rfl⟩

/-- Counterexample for C4 -/
theorem claim4_return_input_counterexample :
    (guarded (E := Unit) (fun _ => none) (fun _ => (0, 0))
      { input := some (fun _ => some issue0), onFail := .returnInputSnake,
        inputParam := some "state", maxAttempts := 3 }
      none (fun _ => .ok .vnull) [.vobj [("state", .vnum 5)]]).result =
      .ret (.vnum 5) ∧
    Value.vnum 5 ≠ Value.vobj [("state", Value.vnum 5)] :=
  ⟨rfl, fun h => Value.noConfusion h⟩

/-- Amended C4 -/
theorem claim4_return_input_amended {E : Type} :
    (∀ (viol : HandoffViolation) (inputData : Value),
      handleFailure (E := E) viol inputData .returnInputSnake = .ret inputData ∧
      handleFailure (E := E) viol inputData .returnInputCamel = .ret inputData) ∧
    (∀ (firstArg : Value) (rest : List Value),
      resolveInputData (firstArg :: rest) none = firstArg) ∧
    (∀ (stringify : Value → Option String) (times : Nat → Nat × Nat)
       (cfg : GuardConfig) (fnName : Option String)
       (producer : RetryState → ProducerOutcome E) (args : List Value),
      1 ≤ cfg.maxAttempts →
      RetryKind.validation ∈ cfg.retryOn →
      cfg.input.bind (fun sch => sch (resolveInputData args cfg.inputParam)) = none →
      (∀ s : RetryState, ∃ v issue, producer s = .ok v ∧
        cfg.output.bind (fun sch => sch v) = some issue) →
      (cfg.onFail = .returnInputSnake ∨ cfg.onFail = .returnInputCamel) →
      (guarded stringify times cfg fnName producer args).result =
        .ret (resolveInputData args cfg.inputParam)) := by
  refine ⟨fun viol inputData => ⟨rfl, rfl⟩, fun firstArg rest => rfl, ?_⟩
  intro stringify times cfg fnName producer args hN hret hin hout honf
  obtain ⟨recs, viol, heq, hvh, hlen, hidx⟩ :=
    guardLoop_exhaust stringify times cfg (cfg.nodeName.getD (fnName.getD "anonymous"))
      producer (resolveInputData args cfg.inputParam) hret hout
      cfg.maxAttempts 1 [] none (by omega) (by omega) hN
  simp only [guarded, hin]
  rw [heq]
  show handleFailure viol (resolveInputData args cfg.inputParam) cfg.onFail =
    .ret (resolveInputData args cfg.inputParam)
  rcases honf with h | h <;> rw [h] <;> rfl

/-- Witness for amended C4 -/
theorem claim4_return_input_amended_witness :
    (handleFailure (E := Unit) (inputViolation (fun _ => none) "n" .vnull issue0) (.vnum 9)
        .returnInputSnake = .ret (.vnum 9) ∧
      handleFailure (E := Unit) (inputViolation (fun _ => none) "n" .vnull issue0) (.vnum 9)
        .returnInputCamel = .ret (.vnum 9)) ∧
    resolveInputData [.vnum 9] none = .vnum 9 ∧
    (guarded (E := Unit) (fun _ => none) (fun _ => (0, 0))
      { output := some (fun _ => some issue0), maxAttempts := 2,
        onFail := .returnInputSnake }
      none (fun _ => .ok .vnull) [.vnum 9]).result =
      .ret (resolveInputData [.vnum 9] none) :=
  ⟨(claim4_return_input_amended (E := Unit)).1
      (inputViolation (fun _ => none) "n" .vnull issue0) (.vnum 9),
   (claim4_return_input_amended (E := Unit)).2.1 (.vnum 9) [],
   (claim4_return_input_amended (E := Unit)).2.2 (fun _ => none) (fun _ => (0, 0))
      { output := some (fun _ => some issue0), maxAttempts := 2,
        onFail := .returnInputSnake }
      none (fun _ => .ok .vnull) [.vnum 9]
      (by decide) (by decide) rfl (fun _ => ⟨.vnull, issue0, rfl, rfl⟩)
      (Or.inl rfl)⟩

/-- Claim C5 -/
theorem claim5_diagnostic_truncation :
    (∀ (d : Diagnostic) (s : String),
      (createDiagnostic d).rawOutput = some s → s.length ≤ 500) ∧
    (∀ d : Diagnostic, createDiagnostic (createDiagnostic d) = createDiagnostic d) := by
  constructor
  · intro d s h
    cases hd : d.rawOutput with
    | none => simp [createDiagnostic, hd] at h
    | some r =>
      simp only [createDiagnostic, hd, Option.map_some'] at h
      injection h with h2
      rw [← h2]
      exact sliceTo_length_le r 500
  · intro d
    cases hd : d.rawOutput with
    | none => simp [createDiagnostic, hd]
    | some r =>
      simp [createDiagnostic, hd, sliceTo, List.take_take]

/-- Witness for C5 -/
theorem claim5_diagnostic_truncation_witness :
    (createDiagnostic diag2000).rawOutput = some (String.mk (List.replicate 500 'x')) ∧
    (String.mk (List.replicate 500 'x')).length ≤ 500 := by
  have h2 : (List.replicate 2000 'x').take 500 = List.replicate 500 'x' := by
    rw [List.take_replicate]
    norm_num
  have h1 : (createDiagnostic diag2000).rawOutput =
      some (String.mk (List.replicate 500 'x')) := by
    show some (String.mk ((List.replicate 2000 'x').take 500)) =
      some (String.mk (List.replicate 500 'x'))
    rw [h2]
  exact ⟨h1, claim5_diagnostic_truncation.1 diag2000
    (String.mk (List.replicate 500 'x')) h1⟩

/-- Counterexample for C6 -/
theorem claim6_parse_truncation_counterexample :
    parseJson (fun _ => .error "Unexpected token") (fun _ => "undefined")
      (.vstr longRaw) = .error ⟨"Unexpected token", longRaw⟩ ∧
    500 < longRaw.length := by
  constructor
  · simp only [parseJson]
  · show 500 < (List.replicate 501 'x').length
    rw [List.length_replicate]
    omega

/-- Amended C6 -/
theorem claim6_parse_truncation_amended :
    (∀ (jp : String → Except String Value) (ts : Value → String)
       (v : Value) (e : ParseErr),
      (∀ s, v ≠ .vstr s) → parseJson jp ts v = .error e → e.rawOutput.length ≤ 500) ∧
    (∀ (jp : String → Except String Value) (ts : Value → String)
       (s msg : String),
      jp (normalizeText s) = .error msg →
      parseJson jp ts (.vstr s) = .error ⟨msg, s⟩) := by
  constructor
  · intro jp ts v e hns h
    cases v with
    | vstr s => exact absurd rfl (hns s)
    | vnull =>
      simp only [parseJson] at h
      injection h with h2
      rw [← h2]
      exact sliceTo_length_le _ 500
    | undef =>
      simp only [parseJson] at h
      injection h with h2
      rw [← h2]
      exact sliceTo_length_le _ 500
    | vbool b =>
      simp only [parseJson] at h
      injection h with h2
      rw [← h2]
      exact sliceTo_length_le _ 500
    | vnum n =>
      simp only [parseJson] at h
      injection h with h2
      rw [← h2]
      exact sliceTo_length_le _ 500
    | vobj fields =>
      simp only [parseJson] at h
      injection h with h2
      rw [← h2]
      exact sliceTo_length_le _ 500
    | varr elems =>
      simp only [parseJson] at h
      injection h with h2
      rw [← h2]
      exact sliceTo_length_le _ 500
  · intro jp ts s msg h
    simp only [parseJson, h]

/-- Witness for amended C6 -/
theorem claim6_parse_truncation_amended_witness :
    parseJson (fun _ => .error "m") (fun _ => "u") .vnull =
      .error ⟨"Expected string, got object", sliceTo "u" 500⟩ ∧
    (ParseErr.mk "Expected string, got object" (sliceTo "u" 500)).rawOutput.length ≤ 500 ∧
    parseJson (fun _ => .error "m") (fun _ => "u") (.vstr "x") = .error ⟨"m", "x"⟩ :=
  ⟨rfl,
   claim6_parse_truncation_amended.1 (fun _ => .error "m") (fun _ => "u") .vnull
     ⟨"Expected string, got object", sliceTo "u" 500⟩
     (fun _ h => Value.noConfusion h) rfl,
   claim6_parse_truncation_amended.2 (fun _ => .error "m") (fun _ => "u") "x" "m" rfl⟩

theorem jsTrimStartL_stripBom (l : List Char) :
    jsTrimStartL (stripBom l) = jsTrimStartL l := by
  cases l with
  | nil => rfl
  | cons c rest =>
    by_cases hc : c.toNat = 0xFEFF
    · have hws : isJsWhitespace c = true := by simp [isJsWhitespace, hc]
      simp only [stripBom, if_pos hc, jsTrimStartL, List.dropWhile_cons, hws, if_pos]
    · simp only [stripBom, if_neg hc]

theorem jsTrimEndL_concat_nonws (l : List Char) (c : Char)
    (hc : isJsWhitespace c = false) : jsTrimEndL (l ++ [c]) = l ++ [c] := by
  simp [jsTrimEndL, List.reverse_append, List.dropWhile_cons, hc]

theorem jsTrimEndL_concat_ws (l : List Char) (c : Char)
    (hc : isJsWhitespace c = true) : jsTrimEndL (l ++ [c]) = jsTrimEndL l := by
  simp [jsTrimEndL, List.reverse_append, List.dropWhile_cons, hc]

theorem trim_concat_ws (l : List Char) (c : Char) (hc : isJsWhitespace c = true) :
    jsTrimEndL (jsTrimStartL (l ++ [c])) = jsTrimEndL (jsTrimStartL l) := by
  simp only [jsTrimStartL, List.dropWhile_append]
  by_cases h : (List.dropWhile isJsWhitespace l).isEmpty
  · have h0 : List.dropWhile isJsWhitespace l = [] := by
      simpa [List.isEmpty_iff] using h
    simp [h0, List.dropWhile_cons, hc]
  · rw [if_neg h]
    exact jsTrimEndL_concat_ws _ c hc

theorem fence_suffix (l : List Char) :
    fenceChars.isSuffixOf (l ++ ['\n', '`', '`', '`']) = true := by
  simp [List.isSuffixOf, List.reverse_append, fenceChars, List.isPrefixOf]

theorem dropLast3 (l : List Char) :
    (l ++ ['\n', '`', '`', '`']).dropLast.dropLast.dropLast = l ++ ['\n'] := by
  have h1 : l ++ ['\n', '`', '`', '`'] = (l ++ ['\n', '`', '`']) ++ ['`'] := by simp
  have h2 : l ++ ['\n', '`', '`'] = (l ++ ['\n', '`']) ++ ['`'] := by simp
  have h3 : l ++ ['\n', '`'] = (l ++ ['\n']) ++ ['`'] := by simp
  rw [h1, List.dropLast_concat, h2, List.dropLast_concat, h3, List.dropLast_concat]

theorem normalize_fenced (jd : List Char) :
    normalizeTextL ('`' :: '`' :: '`' :: 'j' :: 's' :: 'o' :: 'n' :: '\n' ::
        (jd ++ ['\n', '`', '`', '`'])) =
      jsTrimEndL (jsTrimStartL jd) := by
  have hshape : '`' :: '`' :: '`' :: 'j' :: 's' :: 'o' :: 'n' :: '\n' ::
      (jd ++ ['\n', '`', '`', '`']) =
      ('`' :: '`' :: '`' :: 'j' :: 's' :: 'o' :: 'n' :: '\n' ::
        (jd ++ ['\n', '`', '`'])) ++ ['`'] := by simp
  have hte0 : jsTrimEndL ('`' :: '`' :: '`' :: 'j' :: 's' :: 'o' :: 'n' :: '\n' ::
      (jd ++ ['\n', '`', '`', '`'])) =
      '`' :: '`' :: '`' :: 'j' :: 's' :: 'o' :: 'n' :: '\n' ::
        (jd ++ ['\n', '`', '`', '`']) := by
    rw [hshape]
    exact jsTrimEndL_concat_nonws _ '`' (by decide)
  have hte1 : jsTrimEndL (jd ++ ['\n', '`', '`', '`']) = jd ++ ['\n', '`', '`', '`'] := by
    have hsh2 : jd ++ ['\n', '`', '`', '`'] = (jd ++ ['\n', '`', '`']) ++ ['`'] := by simp
    rw [hsh2]
    exact jsTrimEndL_concat_nonws _ '`' (by decide)
  show fenceStrip (jsTrimEndL (jsTrimStartL (stripBom ('`' :: '`' :: '`' :: 'j' :: 's' ::
    'o' :: 'n' :: '\n' :: (jd ++ ['\n', '`', '`', '`']))))) = jsTrimEndL (jsTrimStartL jd)
  rw [show jsTrimStartL (stripBom ('`' :: '`' :: '`' :: 'j' :: 's' :: 'o' :: 'n' :: '\n' ::
    (jd ++ ['\n', '`', '`', '`']))) = '`' :: '`' :: '`' :: 'j' :: 's' :: 'o' :: 'n' ::
    '\n' :: (jd ++ ['\n', '`', '`', '`']) from rfl]
  rw [hte0]
  have hff : fenceStrip ('`' :: '`' :: '`' :: 'j' :: 's' :: 'o' :: 'n' :: '\n' ::
      (jd ++ ['\n', '`', '`', '`'])) =
      jsTrimEndL (jsTrimStartL
        (if fenceChars.isSuffixOf (jsTrimEndL (jd ++ ['\n', '`', '`', '`'])) then
          (jsTrimEndL (jd ++ ['\n', '`', '`', '`'])).dropLast.dropLast.dropLast
        else jd ++ ['\n', '`', '`', '`'])) := rfl
  rw [hff, hte1]
  rw [if_pos (fence_suffix jd)]
  rw [dropLast3 jd]
  exact trim_concat_ws jd '\n' (by decide)

theorem normalize_plain (j : String)
    (hfence : fenceChars.isPrefixOf (jsTrim j).data = false) :
    normalizeText j = jsTrim j := by
  show String.mk (fenceStrip (jsTrimEndL (jsTrimStartL (stripBom j.data)))) = jsTrim j
  rw [jsTrimStartL_stripBom]
  rw [show jsTrimEndL (jsTrimStartL j.data) = (jsTrim j).data from rfl]
  rw [show fenceStrip (jsTrim j).data = (jsTrim j).data from by
    simp only [fenceStrip]
    rw [if_neg (by simp [hfence])]]

theorem normalize_bom (l : List Char) :
    normalizeText (String.mk (Char.ofNat 0xFEFF :: l)) = normalizeText (String.mk l) := by
  show String.mk (fenceStrip (jsTrimEndL (jsTrimStartL (stripBom (Char.ofNat 0xFEFF :: l))))) =
    String.mk (fenceStrip (jsTrimEndL (jsTrimStartL (stripBom l))))
  rw [show stripBom (Char.ofNat 0xFEFF :: l) = l from by simp [stripBom]]
  rw [jsTrimStartL_stripBom l]

/-- Claim C10 -/
theorem claim10_normalization :
    (∀ l : List Char,
      normalizeText (String.mk (Char.ofNat 0xFEFF :: l)) = normalizeText (String.mk l)) ∧
    (∀ (jp : String → Except String Value) (ts : Value → String) (j : String) (v : Value),
      fenceChars.isPrefixOf (jsTrim j).data = false →
      jp (jsTrim j) = .ok v →
      parseJson jp ts (.vstr ("```json\n" ++ j ++ "\n```")) = .ok v ∧
      parseJson jp ts (.vstr j) = .ok v) := by
  refine ⟨normalize_bom, ?_⟩
  intro jp ts j v hfence hjp
  have hdata : ("```json\n" ++ j ++ "\n```").data =
      '`' :: '`' :: '`' :: 'j' :: 's' :: 'o' :: 'n' :: '\n' ::
        (j.data ++ ['\n', '`', '`', '`']) := by
    simp [String.data_append]
  have hf : normalizeText ("```json\n" ++ j ++ "\n```") = jsTrim j := by
    show String.mk (normalizeTextL ("```json\n" ++ j ++ "\n```").data) = jsTrim j
    rw [hdata, normalize_fenced]
    rfl
  constructor
  · simp only [parseJson, hf, hjp]
  · simp only [parseJson, normalize_plain j hfence, hjp]

/-- Witness for C10 -/
theorem claim10_normalization_witness :
    normalizeText (String.mk (Char.ofNat 0xFEFF :: ['a'])) = normalizeText (String.mk ['a']) ∧
    parseJson (fun s => if s = "\x7b\x7d" then .ok .vnull else .error "bad") (fun _ => "")
      (.vstr ("```json\n" ++ "\x7b\x7d" ++ "\n```")) = .ok .vnull ∧
    parseJson (fun s => if s = "\x7b\x7d" then .ok .vnull else .error "bad") (fun _ => "")
      (.vstr "\x7b\x7d") = .ok .vnull := by
  have h := (claim10_normalization.2
    (fun s => if s = "\x7b\x7d" then .ok .vnull else .error "bad") (fun _ => "")
    "\x7b\x7d" .vnull rfl rfl)
  exact ⟨claim10_normalization.1 ['a'], h.1, h.2⟩
